import Mathlib

/-!
Verification model of the Live-Poll repository.

The definitions below are shallow embeddings of the client-side logic of the
repository: the response aggregation of the results view (`Result`), the
per-option summary arithmetic and label bands of its render code, and the
poll session state machine of the participant view (`LivePoll`), in both the
alert variant and the missing-indices variant.  The external document store
(an external collaborator of the application) is modelled as an association
list with point read and full-replace point write, following the interface
the specification describes for it.
-/

namespace LivePollModel

/-- A JavaScript value found at one slot of a `ratings` array: either a number
(modelled as an integer, matching the 1..5 data model) or a non-number. -/
inductive RVal where
  | num (v : Int)
  | notNum
deriving DecidableEq

/-- A document of the `responses` collection: `questionId`, a `ratings` field
that is either an array (`some`) or not an array (`none`), and a `clientId`. -/
structure ResponseDoc where
  questionId : String
  ratings : Option (List RVal)
  clientId : String
deriving DecidableEq

/-- A document of the `questions` collection (only the field the modelled
logic reads: the ordered option labels). -/
structure QuestionDoc where
  options : List String
deriving DecidableEq

/-- The external document store: `questions` and `responses` collections as
association lists keyed by document id.  Modelled from the external
collaborator contract (point reads, full-replace point writes). -/
structure Store where
  questions : List (String × QuestionDoc)
  responses : List (String × ResponseDoc)

/-- Point read on the `questions` collection. -/
def getQuestion (s : Store) (id : String) : Option QuestionDoc :=
  (s.questions.find? (fun p => p.1 == id)).map Prod.snd

/-- Point read on the `responses` collection. -/
def getResponse (s : Store) (id : String) : Option ResponseDoc :=
  (s.responses.find? (fun p => p.1 == id)).map Prod.snd

/-- Full-replace point write (`setDoc` without merge) on an association-list
collection: replaces the document under `id` when present, appends otherwise. -/
def setDocColl (coll : List (String × ResponseDoc)) (id : String) (d : ResponseDoc) :
    List (String × ResponseDoc) :=
  if coll.any (fun p => p.1 == id) then
    coll.map (fun p => if p.1 == id then (id, d) else p)
  else coll ++ [(id, d)]

/-! ### Aggregation (results view, `Result` responses subscription callback) -/

/-- `row[b] += 1` for an in-range index, the identity otherwise (the source
only executes the increment under guards that put the index in range). -/
def bumpAt : List Nat → Nat → List Nat
  | [], _ => []
  | x :: xs, 0 => (x + 1) :: xs
  | x :: xs, Nat.succ b => x :: bumpAt xs b

/-- `counts[i][b] += 1` for in-range indices, the identity otherwise. -/
def bumpCnt : List (List Nat) → Nat → Nat → List (List Nat)
  | [], _, _ => []
  | r :: rs, 0, b => bumpAt r b :: rs
  | r :: rs, Nat.succ i, b => r :: bumpCnt rs i b

/-- Read `counts[i][b]`, `0` out of range. -/
def getCnt (counts : List (List Nat)) (i b : Nat) : Nat :=
  (counts.getD i []).getD b 0

/-- `new Array(optsLen).fill(0).map(() => new Array(5).fill(0))`. -/
def zeroCounts (optsLen : Nat) : List (List Nat) :=
  List.replicate optsLen (List.replicate 5 0)

/-- The `data.ratings.forEach((rVal, i) => ...)` loop of the aggregation:
for the rating at position `i`, `rIdx = typeof rVal === 'number' ? rVal - 1 : -1`,
and `counts[i][rIdx] += 1` when `rIdx >= 0 && rIdx < 5 && i < optsLen`
(for a non-number entry `rIdx = -1`, so the guard always fails). -/
def applyRatings (optsLen : Nat) : List (List Nat) → List RVal → Nat → List (List Nat)
  | counts, [], _ => counts
  | counts, RVal.num v :: rest, i =>
    applyRatings optsLen
      (if 0 ≤ v - 1 ∧ v - 1 < 5 ∧ i < optsLen then bumpCnt counts i (v - 1).toNat else counts)
      rest (i + 1)
  | counts, RVal.notNum :: rest, i => applyRatings optsLen counts rest (i + 1)

/-- The filter predicate of the aggregation:
`data.questionId === activeId && Array.isArray(data.ratings)`. -/
def keeps (activeId : String) (d : ResponseDoc) : Bool :=
  d.questionId == activeId && d.ratings.isSome

/-- The `snap.docs.forEach` accumulation: each kept document bumps `tot` once
and runs the per-rating loop over its `ratings` array. -/
def aggDocs (activeId : String) (optsLen : Nat) :
    List ResponseDoc → List (List Nat) → Nat → List (List Nat) × Nat
  | [], counts, tot => (counts, tot)
  | d :: rest, counts, tot =>
    if keeps activeId d then
      aggDocs activeId optsLen rest (applyRatings optsLen counts (d.ratings.getD []) 0) (tot + 1)
    else
      aggDocs activeId optsLen rest counts tot

/-- The whole aggregation of the responses subscription callback: zeroed
`optsLen × 5` counts, then the accumulation over all response documents. -/
def aggregate (activeId : String) (optsLen : Nat) (docs : List ResponseDoc) :
    List (List Nat) × Nat :=
  aggDocs activeId optsLen docs (zeroCounts optsLen) 0

/-- Whether document `d` contributes an increment to `counts[i][b]` (for
`i < optsLen` and `b < 5`): its ratings entry at position `i` is the number
`b + 1`. -/
def contrib (d : ResponseDoc) (i b : Nat) : Bool :=
  (d.ratings.getD []).getD i RVal.notNum == RVal.num ((b : Int) + 1)

/-! ### Characterization of the aggregation -/

/-- Well-formed counts matrix: `n` rows of 5 buckets each. -/
def Shaped (c : List (List Nat)) (n : Nat) : Prop :=
  c.length = n ∧ ∀ r ∈ c, r.length = 5

theorem bumpAt_length (l : List Nat) (b : Nat) : (bumpAt l b).length = l.length := by
  induction l generalizing b with
  | nil => rfl
  | cons x xs ih => cases b <;> simp [bumpAt, ih]

theorem bumpAt_getD_self (l : List Nat) (b : Nat) (hb : b < l.length) :
    (bumpAt l b).getD b 0 = l.getD b 0 + 1 := by
  induction l generalizing b with
  | nil => simp at hb
  | cons x xs ih =>
    cases b with
    | zero => simp [bumpAt]
    | succ k =>
      simp only [bumpAt, List.getD_cons_succ]
      exact ih k (by simpa using hb)

theorem bumpAt_getD_ne (l : List Nat) (b b' : Nat) (h : b ≠ b') :
    (bumpAt l b).getD b' 0 = l.getD b' 0 := by
  induction l generalizing b b' with
  | nil => rfl
  | cons x xs ih =>
    cases b with
    | zero =>
      cases b' with
      | zero => exact absurd rfl h
      | succ k => simp [bumpAt]
    | succ j =>
      cases b' with
      | zero => simp [bumpAt]
      | succ k =>
        simp only [bumpAt, List.getD_cons_succ]
        exact ih j k (by omega)

theorem bumpCnt_length (c : List (List Nat)) (i b : Nat) :
    (bumpCnt c i b).length = c.length := by
  induction c generalizing i with
  | nil => rfl
  | cons r rs ih => cases i <;> simp [bumpCnt, ih]

theorem bumpCnt_rows (c : List (List Nat)) (i b : Nat) (h : ∀ r ∈ c, r.length = 5) :
    ∀ r ∈ bumpCnt c i b, r.length = 5 := by
  induction c generalizing i with
  | nil => intro r hr; simp [bumpCnt] at hr
  | cons r0 rs ih =>
    intro r hr
    cases i with
    | zero =>
      simp only [bumpCnt, List.mem_cons] at hr
      rcases hr with h1 | h1
      · subst h1; rw [bumpAt_length]; exact h r0 (by simp)
      · exact h r (by simp [h1])
    | succ j =>
      simp only [bumpCnt, List.mem_cons] at hr
      rcases hr with h1 | h1
      · subst h1; exact h r (by simp)
      · exact ih j (fun x hx => h x (by simp [hx])) r h1

theorem bumpCnt_shaped {c : List (List Nat)} {n : Nat} (h : Shaped c n) (i b : Nat) :
    Shaped (bumpCnt c i b) n :=
  ⟨by rw [bumpCnt_length]; exact h.1, bumpCnt_rows c i b h.2⟩

theorem getCnt_bumpCnt_self (c : List (List Nat)) (i b : Nat)
    (hi : i < c.length) (hb : b < (c.getD i []).length) :
    getCnt (bumpCnt c i b) i b = getCnt c i b + 1 := by
  induction c generalizing i with
  | nil => simp at hi
  | cons r rs ih =>
    cases i with
    | zero =>
      simp only [getCnt, bumpCnt, List.getD_cons_zero] at *
      exact bumpAt_getD_self r b hb
    | succ j =>
      simp only [getCnt, bumpCnt, List.getD_cons_succ, List.length_cons] at *
      exact ih j (by omega) hb

theorem getCnt_bumpCnt_ne (c : List (List Nat)) (i b i' b' : Nat) (h : i ≠ i' ∨ b ≠ b') :
    getCnt (bumpCnt c i b) i' b' = getCnt c i' b' := by
  induction c generalizing i i' with
  | nil => rfl
  | cons r rs ih =>
    cases i with
    | zero =>
      cases i' with
      | zero =>
        have hb : b ≠ b' := by
          rcases h with h | h
          · exact absurd rfl h
          · exact h
        simp only [getCnt, bumpCnt, List.getD_cons_zero]
        exact bumpAt_getD_ne r b b' hb
      | succ k => simp [getCnt, bumpCnt]
    | succ j =>
      cases i' with
      | zero => simp [getCnt, bumpCnt]
      | succ k =>
        simp only [getCnt, bumpCnt, List.getD_cons_succ]
        have hjk : j ≠ k ∨ b ≠ b' := by
          rcases h with h | h
          · left; omega
          · right; exact h
        exact ih j k hjk

theorem getD_replicate {α : Type} (x : α) (n i : Nat) (d : α) :
    (List.replicate n x).getD i d = if i < n then x else d := by
  induction n generalizing i with
  | zero => simp
  | succ m ih =>
    cases i with
    | zero => simp [List.replicate_succ]
    | succ k =>
      rw [List.replicate_succ, List.getD_cons_succ, ih k]
      split_ifs <;> first | rfl | omega

theorem zeroCounts_getCnt (n i b : Nat) : getCnt (zeroCounts n) i b = 0 := by
  unfold zeroCounts getCnt
  rw [getD_replicate]
  split_ifs with h
  · rw [getD_replicate]; split_ifs <;> rfl
  · rfl

theorem zeroCounts_shaped (n : Nat) : Shaped (zeroCounts n) n := by
  refine ⟨by simp [zeroCounts], fun r hr => ?_⟩
  have := List.eq_of_mem_replicate hr
  simp [this]

theorem shaped_row_len {c : List (List Nat)} {n : Nat} (h : Shaped c n) {i : Nat} (hi : i < n) :
    (c.getD i []).length = 5 := by
  have hlen : i < c.length := by rw [h.1]; exact hi
  rw [List.getD_eq_getElem c [] hlen]
  exact h.2 _ (List.getElem_mem hlen)

theorem applyRatings_shaped {n : Nat} (rs : List RVal) (c : List (List Nat)) (s : Nat)
    (h : Shaped c n) : Shaped (applyRatings n c rs s) n := by
  induction rs generalizing c s with
  | nil => exact h
  | cons r rest ih =>
    cases r with
    | num v =>
      simp only [applyRatings]
      apply ih
      split_ifs with hg
      · exact bumpCnt_shaped h s (v - 1).toNat
      · exact h
    | notNum => exact ih _ (s + 1) h

theorem applyRatings_getCnt {n : Nat} (rs : List RVal) (c : List (List Nat)) (s i b : Nat)
    (hc : Shaped c n) (hi : i < n) (hb : b < 5) :
    getCnt (applyRatings n c rs s) i b =
      getCnt c i b +
        (if s ≤ i ∧ rs.getD (i - s) RVal.notNum = RVal.num ((b : Int) + 1) then 1 else 0) := by
  induction rs generalizing c s with
  | nil =>
    rw [show applyRatings n c [] s = c from rfl, if_neg]
    · omega
    · rintro ⟨-, hx⟩
      exact RVal.noConfusion (show RVal.notNum = RVal.num ((b : Int) + 1) from hx)
  | cons r rest ih =>
    cases r with
    | notNum =>
      simp only [applyRatings]
      rw [ih c (s + 1) hc]
      congr 1
      by_cases hcond : (s + 1 ≤ i ∧ rest.getD (i - (s + 1)) RVal.notNum = RVal.num ((b : Int) + 1))
      · have hyes : s ≤ i ∧ (RVal.notNum :: rest).getD (i - s) RVal.notNum = RVal.num ((b : Int) + 1) := by
          obtain ⟨h1, h2⟩ := hcond
          refine ⟨by omega, ?_⟩
          rw [show i - s = (i - (s + 1)) + 1 from by omega, List.getD_cons_succ]
          exact h2
        rw [if_pos hcond, if_pos hyes]
      · have hno : ¬(s ≤ i ∧ (RVal.notNum :: rest).getD (i - s) RVal.notNum = RVal.num ((b : Int) + 1)) := by
          rintro ⟨h1, h2⟩
          rcases Nat.lt_or_ge i (s + 1) with hlt | hge
          · rw [show i - s = 0 from by omega, List.getD_cons_zero] at h2
            exact RVal.noConfusion h2
          · apply hcond
            refine ⟨hge, ?_⟩
            rw [show i - s = (i - (s + 1)) + 1 from by omega, List.getD_cons_succ] at h2
            exact h2
        rw [if_neg hcond, if_neg hno]
    | num v =>
      simp only [applyRatings]
      have hc1 : Shaped (if 0 ≤ v - 1 ∧ v - 1 < 5 ∧ s < n then bumpCnt c s (v - 1).toNat else c) n := by
        split_ifs with hg
        · exact bumpCnt_shaped hc s (v - 1).toNat
        · exact hc
      rw [ih _ (s + 1) hc1]
      by_cases hsi : s = i
      · subst hsi
        have hno : ¬(s + 1 ≤ s ∧ rest.getD (s - (s + 1)) RVal.notNum = RVal.num ((b : Int) + 1)) := by
          rintro ⟨h1, -⟩
          omega
        rw [if_neg hno]
        by_cases hv : v = (b : Int) + 1
        · have hg : 0 ≤ v - 1 ∧ v - 1 < 5 ∧ s < n := ⟨by omega, by omega, hi⟩
          have hyes : s ≤ s ∧ (RVal.num v :: rest).getD (s - s) RVal.notNum = RVal.num ((b : Int) + 1) := by
            refine ⟨Nat.le_refl s, ?_⟩
            rw [show s - s = 0 from by omega, List.getD_cons_zero, hv]
          rw [if_pos hyes, if_pos hg]
          have htn : (v - 1).toNat = b := by omega
          rw [htn, getCnt_bumpCnt_self c s b (by rw [hc.1]; exact hi)
            (by rw [shaped_row_len hc hi]; exact hb)]
        · have hne : getCnt (if 0 ≤ v - 1 ∧ v - 1 < 5 ∧ s < n then bumpCnt c s (v - 1).toNat else c) s b
              = getCnt c s b := by
            split_ifs with hg
            · exact getCnt_bumpCnt_ne c s (v - 1).toNat s b (Or.inr fun he => hv (by omega))
            · rfl
          have hno2 : ¬(s ≤ s ∧ (RVal.num v :: rest).getD (s - s) RVal.notNum = RVal.num ((b : Int) + 1)) := by
            rintro ⟨-, h2⟩
            rw [show s - s = 0 from by omega, List.getD_cons_zero] at h2
            exact hv (by injection h2)
          rw [hne, if_neg hno2]
      · have hne : getCnt (if 0 ≤ v - 1 ∧ v - 1 < 5 ∧ s < n then bumpCnt c s (v - 1).toNat else c) i b
            = getCnt c i b := by
          split_ifs with hg
          · exact getCnt_bumpCnt_ne c s (v - 1).toNat i b (Or.inl hsi)
          · rfl
        rw [hne]
        congr 1
        by_cases hcond : (s + 1 ≤ i ∧ rest.getD (i - (s + 1)) RVal.notNum = RVal.num ((b : Int) + 1))
        · have hyes : s ≤ i ∧ (RVal.num v :: rest).getD (i - s) RVal.notNum = RVal.num ((b : Int) + 1) := by
            obtain ⟨h1, h2⟩ := hcond
            refine ⟨by omega, ?_⟩
            rw [show i - s = (i - (s + 1)) + 1 from by omega, List.getD_cons_succ]
            exact h2
          rw [if_pos hcond, if_pos hyes]
        · have hno2 : ¬(s ≤ i ∧ (RVal.num v :: rest).getD (i - s) RVal.notNum = RVal.num ((b : Int) + 1)) := by
            rintro ⟨h1, h2⟩
            apply hcond
            have hlt : s < i := by omega
            refine ⟨by omega, ?_⟩
            rw [show i - s = (i - (s + 1)) + 1 from by omega, List.getD_cons_succ] at h2
            exact h2
          rw [if_neg hcond, if_neg hno2]

theorem aggDocs_tot (a : String) (n : Nat) (docs : List ResponseDoc)
    (c : List (List Nat)) (t : Nat) :
    (aggDocs a n docs c t).2 = t + docs.countP (keeps a) := by
  induction docs generalizing c t with
  | nil => simp [aggDocs]
  | cons d rest ih =>
    by_cases h : keeps a d = true
    · simp only [aggDocs]
      rw [if_pos h, ih, List.countP_cons]
      simp only [h, if_true]
      omega
    · simp only [aggDocs]
      rw [if_neg h, ih, List.countP_cons]
      simp [h]

theorem aggDocs_shaped (a : String) {n : Nat} (docs : List ResponseDoc)
    (c : List (List Nat)) (t : Nat) (hc : Shaped c n) :
    Shaped (aggDocs a n docs c t).1 n := by
  induction docs generalizing c t with
  | nil => exact hc
  | cons d rest ih =>
    by_cases h : keeps a d = true
    · simp only [aggDocs]
      rw [if_pos h]
      exact ih _ _ (applyRatings_shaped _ _ _ hc)
    · simp only [aggDocs]
      rw [if_neg h]
      exact ih _ _ hc

theorem aggDocs_getCnt (a : String) {n : Nat} (i b : Nat) (hi : i < n) (hb : b < 5)
    (docs : List ResponseDoc) (c : List (List Nat)) (t : Nat) (hc : Shaped c n) :
    getCnt (aggDocs a n docs c t).1 i b =
      getCnt c i b + docs.countP (fun d => keeps a d && contrib d i b) := by
  induction docs generalizing c t with
  | nil => simp [aggDocs]
  | cons d rest ih =>
    by_cases h : keeps a d = true
    · simp only [aggDocs]
      rw [if_pos h, ih _ _ (applyRatings_shaped _ _ _ hc),
        applyRatings_getCnt (d.ratings.getD []) c 0 i b hc hi hb]
      have hcnd : (0 ≤ i ∧ (d.ratings.getD []).getD (i - 0) RVal.notNum = RVal.num ((b : Int) + 1))
          ↔ (keeps a d && contrib d i b) = true := by
        rw [h]
        simp [contrib, Nat.sub_zero]
      rw [List.countP_cons]
      by_cases hcd : (keeps a d && contrib d i b) = true
      · rw [if_pos (hcnd.mpr hcd)]
        simp [hcd]
        omega
      · rw [if_neg (fun hx => hcd (hcnd.mp hx))]
        simp [hcd]
    · have hkf : keeps a d = false := by
        revert h
        cases keeps a d <;> simp
      simp only [aggDocs]
      rw [if_neg h, ih _ _ hc, List.countP_cons]
      simp [hkf]

/-- Total of the aggregation: one count per kept response document. -/
theorem agg_tot (a : String) (n : Nat) (docs : List ResponseDoc) :
    (aggregate a n docs).2 = docs.countP (keeps a) := by
  unfold aggregate
  rw [aggDocs_tot]
  omega

/-- Bucket count of the aggregation: one count per kept document whose rating
entry at option `i` is the number `b + 1`. -/
theorem agg_getCnt (a : String) {n : Nat} (docs : List ResponseDoc) (i b : Nat)
    (hi : i < n) (hb : b < 5) :
    getCnt (aggregate a n docs).1 i b =
      docs.countP (fun d => keeps a d && contrib d i b) := by
  unfold aggregate
  rw [aggDocs_getCnt a i b hi hb docs _ 0 (zeroCounts_shaped n), zeroCounts_getCnt]
  omega

theorem agg_shaped (a : String) (n : Nat) (docs : List ResponseDoc) :
    Shaped (aggregate a n docs).1 n :=
  aggDocs_shaped a docs _ 0 (zeroCounts_shaped n)

/-! ### Per-option summary arithmetic (results view option card) -/

/-- `counts.reduce((acc, c, idx) => acc + c * (idx + 1), 0)`, with the running
index made explicit. -/
def weightedSumFrom : List Nat → Nat → Nat
  | [], _ => 0
  | c :: rest, idx => c * (idx + 1) + weightedSumFrom rest (idx + 1)

/-- The `sum` of the option card. -/
def weightedSum (l : List Nat) : Nat := weightedSumFrom l 0

/-- `const total = totalResponses || counts.reduce((a, b) => a + b, 0) || 0`. -/
def optionTotal (counts5 : List Nat) (totalResponses : Nat) : Nat :=
  if totalResponses ≠ 0 then totalResponses else counts5.sum

/-- `const avg = total ? sum / total : 0`. -/
def optionAvg (counts5 : List Nat) (totalResponses : Nat) : Rat :=
  if optionTotal counts5 totalResponses ≠ 0 then
    (weightedSum counts5 : Rat) / (optionTotal counts5 totalResponses : Rat)
  else 0

/-- `const avgPct = Math.round((avg / 5) * 100)`. -/
def optionAvgPct (counts5 : List Nat) (totalResponses : Nat) : Int :=
  round (optionAvg counts5 totalResponses / 5 * 100)

/-- The `pctLabelFor` function of the results view. -/
def pctLabelFor (pct : Int) : String :=
  if pct ≤ 20 then "Not useful"
  else if pct ≤ 40 then "Slightly useful"
  else if pct ≤ 60 then "Useful"
  else if pct ≤ 80 then "Very useful"
  else "Most useful"

theorem list5_cases (row : List Nat) (h : row.length = 5) :
    row = [row.getD 0 0, row.getD 1 0, row.getD 2 0, row.getD 3 0, row.getD 4 0] := by
  rcases row with _ | ⟨a0, row⟩
  · simp at h
  rcases row with _ | ⟨a1, row⟩
  · simp at h
  rcases row with _ | ⟨a2, row⟩
  · simp at h
  rcases row with _ | ⟨a3, row⟩
  · simp at h
  rcases row with _ | ⟨a4, row⟩
  · simp at h
  rcases row with _ | ⟨a5, row⟩
  · rfl
  · simp at h

theorem sum_row (row : List Nat) (h : row.length = 5) :
    row.sum = row.getD 0 0 + row.getD 1 0 + row.getD 2 0 + row.getD 3 0 + row.getD 4 0 := by
  conv_lhs => rw [list5_cases row h]
  simp
  omega

theorem weightedSum_row (row : List Nat) (h : row.length = 5) :
    weightedSum row =
      row.getD 0 0 * 1 + row.getD 1 0 * 2 + row.getD 2 0 * 3 +
        row.getD 3 0 * 4 + row.getD 4 0 * 5 := by
  conv_lhs => rw [list5_cases row h]
  simp [weightedSum, weightedSumFrom]
  omega

theorem keeps_eq_false {a : String} {d : ResponseDoc} (h : ¬keeps a d = true) :
    keeps a d = false := by
  revert h
  cases keeps a d <;> simp

theorem contrib_indicator_le (a : String) (d : ResponseDoc) (i : Nat) :
    (if (keeps a d && contrib d i 0) = true then 1 else 0) +
      (if (keeps a d && contrib d i 1) = true then 1 else 0) +
      (if (keeps a d && contrib d i 2) = true then 1 else 0) +
      (if (keeps a d && contrib d i 3) = true then 1 else 0) +
      (if (keeps a d && contrib d i 4) = true then 1 else 0) ≤
      (if keeps a d = true then 1 else 0) := by
  by_cases hk : keeps a d = true
  · simp only [hk, Bool.true_and, if_pos rfl]
    rcases hx : (d.ratings.getD []).getD i RVal.notNum with v | _
    · simp only [contrib, hx, beq_iff_eq, RVal.num.injEq]
      split_ifs <;> omega
    · simp only [contrib, hx]
      simp
  · simp [keeps_eq_false hk]

theorem contrib_indicator_eq (a : String) (d : ResponseDoc) (i : Nat)
    (hk : keeps a d = true)
    (hcov : ∃ v : Int, (d.ratings.getD []).getD i RVal.notNum = RVal.num v ∧ 1 ≤ v ∧ v ≤ 5) :
    (if (keeps a d && contrib d i 0) = true then 1 else 0) +
      (if (keeps a d && contrib d i 1) = true then 1 else 0) +
      (if (keeps a d && contrib d i 2) = true then 1 else 0) +
      (if (keeps a d && contrib d i 3) = true then 1 else 0) +
      (if (keeps a d && contrib d i 4) = true then 1 else 0) = 1 := by
  obtain ⟨v, hx, h1, h5⟩ := hcov
  simp only [hk, Bool.true_and, contrib, hx, beq_iff_eq, RVal.num.injEq]
  split_ifs <;> omega

theorem countP_five_le (a : String) (i : Nat) (docs : List ResponseDoc) :
    docs.countP (fun d => keeps a d && contrib d i 0) +
      docs.countP (fun d => keeps a d && contrib d i 1) +
      docs.countP (fun d => keeps a d && contrib d i 2) +
      docs.countP (fun d => keeps a d && contrib d i 3) +
      docs.countP (fun d => keeps a d && contrib d i 4) ≤
      docs.countP (keeps a) := by
  induction docs with
  | nil => simp
  | cons d rest ih =>
    simp only [List.countP_cons]
    have h := contrib_indicator_le a d i
    omega

theorem countP_five_eq (a : String) (i : Nat) (docs : List ResponseDoc)
    (hcov : ∀ d ∈ docs, keeps a d = true →
      ∃ v : Int, (d.ratings.getD []).getD i RVal.notNum = RVal.num v ∧ 1 ≤ v ∧ v ≤ 5) :
    docs.countP (fun d => keeps a d && contrib d i 0) +
      docs.countP (fun d => keeps a d && contrib d i 1) +
      docs.countP (fun d => keeps a d && contrib d i 2) +
      docs.countP (fun d => keeps a d && contrib d i 3) +
      docs.countP (fun d => keeps a d && contrib d i 4) =
      docs.countP (keeps a) := by
  induction docs with
  | nil => simp
  | cons d rest ih =>
    have ihr := ih (fun x hx hk => hcov x (List.mem_cons_of_mem d hx) hk)
    simp only [List.countP_cons]
    by_cases hk : keeps a d = true
    · have h := contrib_indicator_eq a d i hk (hcov d (by simp) hk)
      have hk1 : (if keeps a d = true then 1 else 0) = 1 := by simp [hk]
      omega
    · have h := contrib_indicator_le a d i
      have hk0 : (if keeps a d = true then 1 else 0) = 0 := by simp [keeps_eq_false hk]
      omega

theorem agg_row_sum_le (a : String) (n : Nat) (docs : List ResponseDoc) (i : Nat)
    (hi : i < n) :
    ((aggregate a n docs).1.getD i []).sum ≤ (aggregate a n docs).2 := by
  have hsh := agg_shaped a n docs
  rw [sum_row _ (shaped_row_len hsh hi), agg_tot]
  show getCnt (aggregate a n docs).1 i 0 + getCnt (aggregate a n docs).1 i 1 +
    getCnt (aggregate a n docs).1 i 2 + getCnt (aggregate a n docs).1 i 3 +
    getCnt (aggregate a n docs).1 i 4 ≤ _
  rw [agg_getCnt a docs i 0 hi (by omega), agg_getCnt a docs i 1 hi (by omega),
    agg_getCnt a docs i 2 hi (by omega), agg_getCnt a docs i 3 hi (by omega),
    agg_getCnt a docs i 4 hi (by omega)]
  exact countP_five_le a i docs

theorem agg_row_sum_eq (a : String) (n : Nat) (docs : List ResponseDoc) (i : Nat)
    (hi : i < n)
    (hcov : ∀ d ∈ docs, keeps a d = true →
      ∃ v : Int, (d.ratings.getD []).getD i RVal.notNum = RVal.num v ∧ 1 ≤ v ∧ v ≤ 5) :
    ((aggregate a n docs).1.getD i []).sum = (aggregate a n docs).2 := by
  have hsh := agg_shaped a n docs
  rw [sum_row _ (shaped_row_len hsh hi), agg_tot]
  show getCnt (aggregate a n docs).1 i 0 + getCnt (aggregate a n docs).1 i 1 +
    getCnt (aggregate a n docs).1 i 2 + getCnt (aggregate a n docs).1 i 3 +
    getCnt (aggregate a n docs).1 i 4 = _
  rw [agg_getCnt a docs i 0 hi (by omega), agg_getCnt a docs i 1 hi (by omega),
    agg_getCnt a docs i 2 hi (by omega), agg_getCnt a docs i 3 hi (by omega),
    agg_getCnt a docs i 4 hi (by omega)]
  exact countP_five_eq a i docs hcov

theorem weightedSum_le (row : List Nat) (h : row.length = 5) :
    weightedSum row ≤ 5 * row.sum := by
  rw [weightedSum_row row h, sum_row row h]
  omega

theorem agg_row_zero (a : String) (n : Nat) (docs : List ResponseDoc) (i : Nat)
    (hi : i < n) (ht : (aggregate a n docs).2 = 0) :
    ((aggregate a n docs).1.getD i []).sum = 0 := by
  have := agg_row_sum_le a n docs i hi
  omega

theorem round_pct_nonneg (x : Rat) (h0 : 0 ≤ x) : 0 ≤ round (x / 5 * 100) := by
  rw [round_eq]
  refine Int.le_floor.mpr ?_
  push_cast
  have hx : (0 : ℚ) ≤ x / 5 * 100 := by positivity
  linarith

theorem round_pct_le (x : Rat) (h5 : x ≤ 5) : round (x / 5 * 100) ≤ 100 := by
  rw [round_eq]
  have h1 : x / 5 ≤ 1 := by
    rw [div_le_one (by norm_num)]
    linarith
  have h2 : x / 5 * 100 + 1 / 2 < ((101 : ℤ) : ℚ) := by
    push_cast
    nlinarith
  have := Int.floor_lt.mpr h2
  omega

/-- Example 1 of the specification: two responses with ratings `[5,1]` and
`[3,3]` for a two-option question `"q"`. -/
def exTwo : List ResponseDoc :=
  [⟨"q", some [RVal.num 5, RVal.num 1], "c1"⟩,
   ⟨"q", some [RVal.num 3, RVal.num 3], "c2"⟩]

/-- C1: Aggregation contract.  The aggregation keeps exactly the responses
whose `questionId` equals the active question id and whose `ratings` field is
an array; its `total` equals the number of kept responses (each kept response
counting once even when per-option entries are skipped); the counts matrix
has one row per option; and for `i < N`, `b < 5` the bucket count
`counts[i][b]` equals the number of kept responses whose ratings entry at
position `i` is the number `b + 1` — every other (option, response)
contribution is skipped individually. -/
theorem claim_C1 (activeId : String) (optsLen : Nat) (docs : List ResponseDoc)
    (i b : Nat) (hi : i < optsLen) (hb : b < 5) :
    (aggregate activeId optsLen docs).2 = (docs.filter (keeps activeId)).length ∧
    (aggregate activeId optsLen docs).1.length = optsLen ∧
    getCnt (aggregate activeId optsLen docs).1 i b =
      ((docs.filter (keeps activeId)).filter (fun d => contrib d i b)).length := by
  refine ⟨?_, (agg_shaped activeId optsLen docs).1, ?_⟩
  · rw [agg_tot, List.countP_eq_length_filter]
  · rw [agg_getCnt activeId docs i b hi hb]
    have e1 : ((docs.filter (keeps activeId)).filter (fun d => contrib d i b)).length
        = (docs.filter (keeps activeId)).countP (fun d => contrib d i b) :=
      (List.countP_eq_length_filter _ _).symm
    rw [e1, List.countP_filter]
    exact List.countP_congr (fun d _ => by rw [Bool.and_comm])

theorem claim_C1_witness :
    (aggregate "q" 2 exTwo).2 = (exTwo.filter (keeps "q")).length ∧
    (aggregate "q" 2 exTwo).1.length = 2 ∧
    getCnt (aggregate "q" 2 exTwo).1 0 2 =
      ((exTwo.filter (keeps "q")).filter (fun d => contrib d 0 2)).length :=
  claim_C1 "q" 2 exTwo 0 2 (by decide) (by decide)

/-- C2: Per-option summary arithmetic over the aggregation result.  For every
option `i < N`, the card sum equals `Σ_b counts[i][b] * (b+1)`; the average is
`sum / total` when `total > 0` and `0` when `total = 0`; the average always
lies in `[0, 5]`; and the percentage is `round(avg / 5 * 100)`, an integer in
`[0, 100]`. -/
theorem claim_C2 (activeId : String) (optsLen : Nat) (docs : List ResponseDoc) (i : Nat)
    (row : List Nat) (tot : Nat)
    (hi : i < optsLen)
    (hrow : row = (aggregate activeId optsLen docs).1.getD i [])
    (htot : tot = (aggregate activeId optsLen docs).2) :
    weightedSum row = row.getD 0 0 * 1 + row.getD 1 0 * 2 + row.getD 2 0 * 3 +
        row.getD 3 0 * 4 + row.getD 4 0 * 5 ∧
    (0 < tot → optionAvg row tot = (weightedSum row : Rat) / (tot : Rat)) ∧
    (tot = 0 → optionAvg row tot = 0) ∧
    0 ≤ optionAvg row tot ∧ optionAvg row tot ≤ 5 ∧
    optionAvgPct row tot = round (optionAvg row tot / 5 * 100) ∧
    0 ≤ optionAvgPct row tot ∧ optionAvgPct row tot ≤ 100 := by
  subst hrow htot
  have hlen : ((aggregate activeId optsLen docs).1.getD i []).length = 5 :=
    shaped_row_len (agg_shaped activeId optsLen docs) hi
  have hsum := agg_row_sum_le activeId optsLen docs i hi
  have hws := weightedSum_le _ hlen
  have havg0 : 0 ≤ optionAvg ((aggregate activeId optsLen docs).1.getD i [])
      (aggregate activeId optsLen docs).2 := by
    rw [optionAvg]
    split_ifs with h
    · positivity
    · exact le_refl 0
  have havg5 : optionAvg ((aggregate activeId optsLen docs).1.getD i [])
      (aggregate activeId optsLen docs).2 ≤ 5 := by
    rw [optionAvg]
    split_ifs with h
    · have hTpos : 0 < optionTotal ((aggregate activeId optsLen docs).1.getD i [])
          (aggregate activeId optsLen docs).2 := Nat.pos_of_ne_zero h
      rw [div_le_iff₀ (by exact_mod_cast hTpos)]
      have hwsN : weightedSum ((aggregate activeId optsLen docs).1.getD i []) ≤
          5 * optionTotal ((aggregate activeId optsLen docs).1.getD i [])
            (aggregate activeId optsLen docs).2 := by
        rw [optionTotal]
        split_ifs with ht
        · omega
        · exact hws
      exact_mod_cast hwsN
    · norm_num
  refine ⟨weightedSum_row _ hlen, ?_, ?_, havg0, havg5, rfl,
    round_pct_nonneg _ havg0, round_pct_le _ havg5⟩
  · intro h
    have hT : optionTotal ((aggregate activeId optsLen docs).1.getD i [])
        (aggregate activeId optsLen docs).2 = (aggregate activeId optsLen docs).2 := by
      rw [optionTotal, if_pos (by omega)]
    rw [optionAvg, hT, if_pos (by omega)]
  · intro h
    have hrz := agg_row_zero activeId optsLen docs i hi h
    have hT : optionTotal ((aggregate activeId optsLen docs).1.getD i [])
        (aggregate activeId optsLen docs).2 = 0 := by
      rw [optionTotal, h, if_neg (by omega)]
      exact hrz
    rw [optionAvg, hT]
    simp

theorem claim_C2_witness :
    0 ≤ optionAvg ((aggregate "q" 2 exTwo).1.getD 0 []) (aggregate "q" 2 exTwo).2 ∧
    optionAvg ((aggregate "q" 2 exTwo).1.getD 0 []) (aggregate "q" 2 exTwo).2 ≤ 5 :=
  ⟨(claim_C2 "q" 2 exTwo 0 _ _ (by decide) rfl rfl).2.2.2.1,
   (claim_C2 "q" 2 exTwo 0 _ _ (by decide) rfl rfl).2.2.2.2.1⟩

/-- C3: Descriptive label bands of `pctLabelFor`: fixed 20-point bands with
upper boundaries inclusive, and `p = 0` falls into the first band rather
than a separate no-data band. -/
theorem claim_C3 (p : Int) (h0 : 0 ≤ p) (h100 : p ≤ 100) :
    (p ≤ 20 → pctLabelFor p = "Not useful") ∧
    (20 < p → p ≤ 40 → pctLabelFor p = "Slightly useful") ∧
    (40 < p → p ≤ 60 → pctLabelFor p = "Useful") ∧
    (60 < p → p ≤ 80 → pctLabelFor p = "Very useful") ∧
    (80 < p → pctLabelFor p = "Most useful") ∧
    pctLabelFor 20 = "Not useful" ∧ pctLabelFor 21 = "Slightly useful" ∧
    pctLabelFor 80 = "Very useful" ∧ pctLabelFor 81 = "Most useful" ∧
    pctLabelFor 0 = "Not useful" := by
  refine ⟨?_, ?_, ?_, ?_, ?_, by rfl, by rfl, by rfl, by rfl, by rfl⟩
  · intro h
    rw [pctLabelFor, if_pos h]
  · intro h1 h2
    rw [pctLabelFor, if_neg (by omega), if_pos h2]
  · intro h1 h2
    rw [pctLabelFor, if_neg (by omega), if_neg (by omega), if_pos h2]
  · intro h1 h2
    rw [pctLabelFor, if_neg (by omega), if_neg (by omega), if_neg (by omega), if_pos h2]
  · intro h
    rw [pctLabelFor, if_neg (by omega), if_neg (by omega), if_neg (by omega),
      if_neg (by omega)]

theorem claim_C3_witness : pctLabelFor 21 = "Slightly useful" :=
  (claim_C3 21 (by decide) (by decide)).2.1 (by decide) (by decide)

/-! ### Poll session state machine (participant view `LivePoll`) -/

/-- The question loaded into the session: `{ id: qSnap.id, ...qSnap.data() }`
restricted to the fields the modelled logic reads. -/
structure ActiveQuestion where
  id : String
  options : List String
deriving DecidableEq

/-- The participant component state: `question`, `ratings` (one per option,
`0` = unselected), `submitted`. -/
structure SessionState where
  question : Option ActiveQuestion
  ratings : List Int
  submitted : Bool
deriving DecidableEq

/-- `const id = data?.questionId || null`: for a string-or-null field every
falsy value — null, an absent field, or the empty string — coerces to null. -/
def normalizeId : Option String → Option String
  | none => none
  | some s => if s = "" then none else some s

/-- The active-question `onSnapshot` handler of the participant view: a falsy
pointer or a missing question document clears the state; otherwise the
question is loaded, ratings are reset to all-unset, and `submitted` is set
from the existence of the `{questionId}_{clientId}` response document. -/
def onActiveSnapshot (store : Store) (clientId : String) (rawField : Option String) :
    SessionState :=
  match normalizeId rawField with
  | none => ⟨none, [], false⟩
  | some id =>
    match getQuestion store id with
    | none => ⟨none, [], false⟩
    | some q =>
      ⟨some ⟨id, q.options⟩, List.replicate q.options.length 0,
        (getResponse store (id ++ "_" ++ clientId)).isSome⟩

/-- The results view component state: `question`, `optionRatingCounts`,
`totalResponses`. -/
structure ResultState where
  question : Option ActiveQuestion
  optionRatingCounts : List (List Nat)
  totalResponses : Nat
deriving DecidableEq

/-- The active-question `onSnapshot` handler of the results view (note: only
the falsy-pointer branch resets `totalResponses`). -/
def onActiveSnapshotResult (store : Store) (rawField : Option String) (st : ResultState) :
    ResultState :=
  match normalizeId rawField with
  | none => ⟨none, [], 0⟩
  | some id =>
    match getQuestion store id with
    | some q => ⟨some ⟨id, q.options⟩, zeroCounts q.options.length, st.totalResponses⟩
    | none => ⟨none, [], st.totalResponses⟩

/-- The responses-collection `onSnapshot` handler of the results view: reads
the active pointer, clears counts and total when it is falsy, and otherwise
re-aggregates the whole collection against the active question's option
count (0 when the question document is missing). -/
def onResponsesSnapshotResult (store : Store) (rawActive : Option String)
    (docs : List ResponseDoc) (st : ResultState) : ResultState :=
  match normalizeId rawActive with
  | none => { st with optionRatingCounts := [], totalResponses := 0 }
  | some activeId =>
    let optsLen :=
      match getQuestion store activeId with
      | some q => q.options.length
      | none => 0
    { st with optionRatingCounts := (aggregate activeId optsLen docs).1,
              totalResponses := (aggregate activeId optsLen docs).2 }

/-- C4: Poll session step on an ActivePointer notification.  A null pointer or
a missing question document yields the cleared state (no question, no
ratings, `submitted = false`); otherwise the question is loaded, ratings are
reset to all-unset (`0`), and `submitted` is true exactly when the response
document with id `{questionId}_{clientId}` exists. -/
theorem claim_C4 (store : Store) (clientId : String) (rawField : Option String) :
    ((normalizeId rawField = none ∨
        ∃ id, normalizeId rawField = some id ∧ getQuestion store id = none) →
      onActiveSnapshot store clientId rawField = ⟨none, [], false⟩) ∧
    (∀ id q, normalizeId rawField = some id → getQuestion store id = some q →
      onActiveSnapshot store clientId rawField =
        ⟨some ⟨id, q.options⟩, List.replicate q.options.length 0,
          (getResponse store (id ++ "_" ++ clientId)).isSome⟩) := by
  constructor
  · intro h
    rcases h with h | ⟨id, hid, hq⟩
    · simp only [onActiveSnapshot, h]
    · simp only [onActiveSnapshot, hid, hq]
  · intro id q hid hq
    simp only [onActiveSnapshot, hid, hq]

theorem claim_C4_witness :
    onActiveSnapshot ⟨[("q1", ⟨["a", "b"]⟩)], []⟩ "c" (some "q1") =
      ⟨some ⟨"q1", ["a", "b"]⟩, [0, 0], false⟩ := by
  have h := (claim_C4 ⟨[("q1", ⟨["a", "b"]⟩)], []⟩ "c" (some "q1")).2 "q1" ⟨["a", "b"]⟩
    rfl rfl
  rw [h]
  rfl

/-- C10: A pointer whose `questionId` field is the empty string is coerced to
null by `data?.questionId || null` and treated identically to a null pointer
by the participant view and by both handlers of the results view: the session
clears (question, ratings, `submitted`) and the aggregator clears its counts
and total. -/
theorem claim_C10 (store : Store) (clientId : String) (docs : List ResponseDoc)
    (st : ResultState) :
    onActiveSnapshot store clientId (some "") = onActiveSnapshot store clientId none ∧
    onActiveSnapshot store clientId (some "") = ⟨none, [], false⟩ ∧
    onActiveSnapshotResult store (some "") st = onActiveSnapshotResult store none st ∧
    onActiveSnapshotResult store (some "") st = ⟨none, [], 0⟩ ∧
    onResponsesSnapshotResult store (some "") docs st =
      { st with optionRatingCounts := [], totalResponses := 0 } :=
  ⟨rfl, rfl, rfl, rfl, rfl⟩

/-! ### Missing-indices variant of the participant view -/

/-- Component state of the missing-indices variant: additionally tracks the
indices of options missing a rating. -/
structure PollB where
  question : Option ActiveQuestion
  ratings : List Int
  submitted : Bool
  missingIndices : List Int
deriving DecidableEq

/-- `setRatingForOption`: copies the ratings array with `copy[optIndex] =
ratingValue` and drops `optIndex` from the missing markers. -/
def setRatingForOption (st : PollB) (optIndex : Nat) (ratingValue : Int) : PollB :=
  { st with
      ratings := st.ratings.set optIndex ratingValue,
      missingIndices := st.missingIndices.filter (fun i => i != (optIndex : Int)) }

/-- `ratings.map((r, i) => (r < 1 || r > 5 ? i : -1)).filter((i) => i >= 0)`. -/
def missingOf (ratings : List Int) : List Int :=
  ((ratings.enum).map (fun p => if p.2 < 1 ∨ 5 < p.2 then (p.1 : Int) else -1)).filter
    (fun i => decide (0 ≤ i))

/-- The `handleSubmit` of the missing-indices variant, with the outcome of the
store write passed in as `writeOk`; returns the new component state, the
responses collection, and the error log. -/
def handleSubmitMissing (clientId : String) (writeOk : Bool) (st : PollB)
    (resps : List (String × ResponseDoc)) (log : List String) :
    PollB × List (String × ResponseDoc) × List String :=
  match st.question with
  | none => (st, resps, log)
  | some q =>
    if st.submitted then (st, resps, log)
    else
      if st.ratings.length = 0 ∨ 0 < (missingOf st.ratings).length then
        ({ st with missingIndices := missingOf st.ratings }, resps, log)
      else
        if writeOk then
          ({ st with submitted := true, missingIndices := [] },
            setDocColl resps (q.id ++ "_" ++ clientId)
              ⟨q.id, some (st.ratings.map RVal.num), clientId⟩, log)
        else
          (st, resps, log ++ ["failed to save response"])

/-- Recursive form of `missingOf` used to characterize it. -/
def missingAux : List Int → Nat → List Int
  | [], _ => []
  | r :: rest, i => (if r < 1 ∨ 5 < r then [(i : Int)] else []) ++ missingAux rest (i + 1)

theorem missingOf_enumFrom (r : List Int) :
    ∀ k : Nat,
      ((List.enumFrom k r).map (fun p => if p.2 < 1 ∨ 5 < p.2 then (p.1 : Int) else -1)).filter
          (fun i => decide (0 ≤ i)) = missingAux r k := by
  induction r with
  | nil => intro k; rfl
  | cons x rest ih =>
    intro k
    simp only [List.enumFrom, List.map_cons, List.filter_cons, missingAux]
    by_cases hx : x < 1 ∨ 5 < x
    · rw [if_pos hx]
      simp only [Int.natCast_nonneg, decide_eq_true_eq, if_pos (Int.natCast_nonneg k)]
      rw [ih (k + 1), if_pos hx]
      rfl
    · rw [if_neg hx]
      have hdec : (decide ((0 : Int) ≤ -1)) = false := by decide
      rw [hdec]
      simp only [Bool.false_eq_true, if_false]
      rw [ih (k + 1), if_neg hx, List.nil_append]

theorem missingOf_eq_aux (r : List Int) : missingOf r = missingAux r 0 := by
  rw [missingOf, List.enum]
  exact missingOf_enumFrom r 0

theorem missingAux_mem (r : List Int) :
    ∀ (k i : Nat),
      ((i : Int) ∈ missingAux r k) ↔
        (k ≤ i ∧ i - k < r.length ∧ (r.getD (i - k) 0 < 1 ∨ 5 < r.getD (i - k) 0)) := by
  induction r with
  | nil =>
    intro k i
    simp [missingAux]
  | cons x rest ih =>
    intro k i
    simp only [missingAux, List.mem_append]
    constructor
    · intro h
      rcases h with h | h
      · have hik : i = k := by
          by_cases hx : x < 1 ∨ 5 < x
          · rw [if_pos hx] at h
            simp at h
            omega
          · rw [if_neg hx] at h
            simp at h
        subst hik
        have hx : x < 1 ∨ 5 < x := by
          by_cases hx : x < 1 ∨ 5 < x
          · exact hx
          · rw [if_neg hx] at h
            simp at h
        refine ⟨Nat.le_refl i, by simp, ?_⟩
        rw [show i - i = 0 from by omega, List.getD_cons_zero]
        exact hx
      · obtain ⟨h1, h2, h3⟩ := (ih (k + 1) i).mp h
        refine ⟨by omega, ?_, ?_⟩
        · simp only [List.length_cons]
          omega
        · rw [show i - k = (i - (k + 1)) + 1 from by omega, List.getD_cons_succ]
          exact h3
    · rintro ⟨h1, h2, h3⟩
      by_cases hik : i = k
      · subst hik
        rw [show i - i = 0 from by omega, List.getD_cons_zero] at h3
        left
        rw [if_pos h3]
        simp
      · right
        refine (ih (k + 1) i).mpr ⟨by omega, ?_, ?_⟩
        · simp only [List.length_cons] at h2
          omega
        · rw [show i - k = (i - (k + 1)) + 1 from by omega, List.getD_cons_succ] at h3
          exact h3

theorem missingOf_mem (r : List Int) (i : Nat) :
    ((i : Int) ∈ missingOf r) ↔
      (i < r.length ∧ (r.getD i 0 < 1 ∨ 5 < r.getD i 0)) := by
  rw [missingOf_eq_aux]
  have h := missingAux_mem r 0 i
  simpa using h

/-- C5: Submit validation (missing-indices variant).  From `Unanswered`, a
submit with any rating outside `[1,5]` performs no write, stays `Unanswered`
with question and ratings unchanged, and surfaces exactly the out-of-range
option indices, re-computed from the current ratings; a surfaced index is
dropped as soon as that option receives a rating; a submit with every option
rated in `[1,5]` writes the response document as a full replace and sets
`submitted`. -/
theorem claim_C5 (clientId : String) (st : PollB) (q : ActiveQuestion)
    (resps : List (String × ResponseDoc)) (log : List String)
    (hq : st.question = some q) (hns : st.submitted = false) (hne : st.ratings ≠ []) :
    (missingOf st.ratings ≠ [] →
      (handleSubmitMissing clientId true st resps log).1.question = st.question ∧
      (handleSubmitMissing clientId true st resps log).1.ratings = st.ratings ∧
      (handleSubmitMissing clientId true st resps log).1.submitted = false ∧
      (handleSubmitMissing clientId true st resps log).2.1 = resps ∧
      (handleSubmitMissing clientId true st resps log).1.missingIndices =
        missingOf st.ratings) ∧
    (∀ i : Nat, ((i : Int) ∈ missingOf st.ratings) ↔
      (i < st.ratings.length ∧
        ¬(1 ≤ st.ratings.getD i 0 ∧ st.ratings.getD i 0 ≤ 5))) ∧
    (∀ (idx : Nat) (v : Int), ¬((idx : Int) ∈ (setRatingForOption st idx v).missingIndices)) ∧
    (missingOf st.ratings = [] →
      (handleSubmitMissing clientId true st resps log).1.submitted = true ∧
      (handleSubmitMissing clientId true st resps log).1.missingIndices = [] ∧
      (handleSubmitMissing clientId true st resps log).2.1 =
        setDocColl resps (q.id ++ "_" ++ clientId)
          ⟨q.id, some (st.ratings.map RVal.num), clientId⟩) := by
  have hsub : ¬(st.submitted = true) := by
    rw [hns]
    exact Bool.false_ne_true
  refine ⟨?_, ?_, ?_, ?_⟩
  · intro hm
    have hcond : st.ratings.length = 0 ∨ 0 < (missingOf st.ratings).length :=
      Or.inr (List.length_pos.mpr hm)
    simp only [handleSubmitMissing, hq]
    rw [if_neg hsub, if_pos hcond]
    exact ⟨rfl, rfl, hns, rfl, rfl⟩
  · intro i
    rw [missingOf_mem]
    constructor
    · rintro ⟨h1, h2⟩
      exact ⟨h1, by omega⟩
    · rintro ⟨h1, h2⟩
      exact ⟨h1, by omega⟩
  · intro idx v hmem
    have h := List.mem_filter.mp hmem
    simp at h
  · intro hm
    have hcond : ¬(st.ratings.length = 0 ∨ 0 < (missingOf st.ratings).length) := by
      rintro (h | h)
      · exact hne (List.eq_nil_of_length_eq_zero h)
      · rw [hm] at h
        simp at h
    simp only [handleSubmitMissing, hq]
    rw [if_neg hsub, if_neg hcond]
    exact ⟨rfl, rfl, rfl⟩

theorem claim_C5_witness :
    (handleSubmitMissing "c" true ⟨some ⟨"q", ["a", "b"]⟩, [0, 3], false, []⟩ [] []).1.missingIndices
      = missingOf [0, 3] :=
  ((claim_C5 "c" ⟨some ⟨"q", ["a", "b"]⟩, [0, 3], false, []⟩ ⟨"q", ["a", "b"]⟩ [] []
      rfl rfl (by decide)).1 (by decide)).2.2.2.2

/-! ### Deterministic response ids and overwrite semantics -/

theorem setDocColl_hasKey (coll : List (String × ResponseDoc)) (id : String)
    (d : ResponseDoc) :
    (setDocColl coll id d).any (fun p => p.1 == id) = true := by
  rw [setDocColl]
  split_ifs with h
  · obtain ⟨p, hp, hpe⟩ := List.any_eq_true.mp h
    refine List.any_eq_true.mpr ⟨(id, d), List.mem_map.mpr ⟨p, hp, by rw [if_pos hpe]⟩, ?_⟩
    exact beq_self_eq_true id
  · refine List.any_eq_true.mpr ⟨(id, d), ?_, beq_self_eq_true id⟩
    simp

theorem setDocColl_key_val (coll : List (String × ResponseDoc)) (id : String)
    (d : ResponseDoc) :
    ∀ p ∈ setDocColl coll id d, p.1 = id → p.2 = d := by
  rw [setDocColl]
  split_ifs with h
  · intro p hp hpk
    obtain ⟨p0, hp0, hval⟩ := List.mem_map.mp hp
    by_cases hk : p0.1 == id
    · rw [if_pos hk] at hval
      rw [← hval]
    · rw [if_neg hk] at hval
      subst hval
      exact absurd (beq_iff_eq.mpr hpk) hk
  · intro p hp hpk
    rcases List.mem_append.mp hp with h1 | h1
    · have hcontra : coll.any (fun p => p.1 == id) = true :=
        List.any_eq_true.mpr ⟨p, h1, beq_iff_eq.mpr hpk⟩
      exact absurd hcontra h
    · have hpd : p = (id, d) := by simpa using h1
      rw [hpd]

theorem setDocColl_keys_of_hasKey (coll : List (String × ResponseDoc)) (id : String)
    (d : ResponseDoc) (h : coll.any (fun p => p.1 == id) = true) :
    (setDocColl coll id d).map Prod.fst = coll.map Prod.fst := by
  rw [setDocColl, if_pos h, List.map_map]
  refine List.map_congr_left ?_
  intro p hp
  by_cases hk : p.1 == id
  · simp only [Function.comp, if_pos hk]
    exact (beq_iff_eq.mp hk).symm
  · simp only [Function.comp, if_neg hk]

theorem setDocColl_nodup (coll : List (String × ResponseDoc)) (id : String)
    (d : ResponseDoc) (h : (coll.map Prod.fst).Nodup) :
    ((setDocColl coll id d).map Prod.fst).Nodup := by
  by_cases hk : coll.any (fun p => p.1 == id) = true
  · rw [setDocColl_keys_of_hasKey coll id d hk]
    exact h
  · rw [setDocColl, if_neg hk, List.map_append]
    simp only [List.map_cons, List.map_nil]
    refine List.Nodup.append h (List.nodup_singleton id) ?_
    intro a ha hb
    simp only [List.mem_singleton] at hb
    obtain ⟨p, hp, hpe⟩ := List.mem_map.mp ha
    have hcontra : coll.any (fun p => p.1 == id) = true :=
      List.any_eq_true.mpr ⟨p, hp, beq_iff_eq.mpr (hpe.trans hb)⟩
    exact hk hcontra

theorem nodup_filter_key_le_one (coll : List (String × ResponseDoc)) (id : String)
    (h : (coll.map Prod.fst).Nodup) :
    (coll.filter (fun p => p.1 == id)).length ≤ 1 := by
  rw [← List.countP_eq_length_filter]
  have he : coll.countP (fun p => p.1 == id) = (coll.map Prod.fst).countP (fun k => k == id) := by
    rw [List.countP_map]
    rfl
  rw [he]
  have := (List.nodup_iff_count_le_one.mp h) id
  rw [List.count] at this
  exact this

theorem countP_keeps_replace (a : String) (id : String) (d1 d2 : ResponseDoc)
    (hkeq : keeps a d2 = keeps a d1) (l : List (String × ResponseDoc))
    (hall : ∀ p ∈ l, p.1 = id → p.2 = d1) :
    ((l.map (fun p => if p.1 == id then (id, d2) else p)).map Prod.snd).countP (keeps a)
      = (l.map Prod.snd).countP (keeps a) := by
  induction l with
  | nil => rfl
  | cons p rest ih =>
    simp only [List.map_cons, List.countP_cons]
    rw [ih (fun x hx => hall x (List.mem_cons_of_mem _ hx))]
    by_cases hk : p.1 == id
    · rw [if_pos hk]
      have hp2 : p.2 = d1 := hall p (by simp) (beq_iff_eq.mp hk)
      simp only [hp2, hkeq]
    · rw [if_neg hk]

theorem setDocColl_eq_replace (coll : List (String × ResponseDoc)) (id : String)
    (d : ResponseDoc) (h : coll.any (fun p => p.1 == id) = true) :
    setDocColl coll id d = coll.map (fun p => if p.1 == id then (id, d) else p) := by
  rw [setDocColl, if_pos h]

/-- C6: Resubmission idempotence.  Both submissions use the same deterministic
document id `{questionId}_{clientId}`; the second write replaces the first
document instead of adding one (collection size unchanged), the aggregated
total over the collection is unchanged for every active question, and with
key-unique collections at most one response per (question, client) pair ever
exists. -/
theorem claim_C6 (qid cid : String) (coll : List (String × ResponseDoc))
    (d1 d2 : ResponseDoc)
    (hnd : (coll.map Prod.fst).Nodup)
    (hq1 : d1.questionId = qid) (hq2 : d2.questionId = qid)
    (hr1 : d1.ratings.isSome = true) (hr2 : d2.ratings.isSome = true) :
    (setDocColl (setDocColl coll (qid ++ "_" ++ cid) d1) (qid ++ "_" ++ cid) d2).length
      = (setDocColl coll (qid ++ "_" ++ cid) d1).length ∧
    (∀ activeId optsLen,
      (aggregate activeId optsLen
        ((setDocColl (setDocColl coll (qid ++ "_" ++ cid) d1) (qid ++ "_" ++ cid) d2).map
          Prod.snd)).2
        = (aggregate activeId optsLen
            ((setDocColl coll (qid ++ "_" ++ cid) d1).map Prod.snd)).2) ∧
    ((setDocColl (setDocColl coll (qid ++ "_" ++ cid) d1) (qid ++ "_" ++ cid) d2).map
      Prod.fst).Nodup ∧
    ((setDocColl (setDocColl coll (qid ++ "_" ++ cid) d1) (qid ++ "_" ++ cid) d2).filter
      (fun p => p.1 == qid ++ "_" ++ cid)).length ≤ 1 := by
  have honce := setDocColl_hasKey coll (qid ++ "_" ++ cid) d1
  have hrepl := setDocColl_eq_replace (setDocColl coll (qid ++ "_" ++ cid) d1)
    (qid ++ "_" ++ cid) d2 honce
  have hnd2 : ((setDocColl (setDocColl coll (qid ++ "_" ++ cid) d1)
      (qid ++ "_" ++ cid) d2).map Prod.fst).Nodup :=
    setDocColl_nodup _ _ _ (setDocColl_nodup _ _ _ hnd)
  refine ⟨?_, ?_, hnd2, nodup_filter_key_le_one _ _ hnd2⟩
  · rw [hrepl, List.length_map]
  · intro activeId optsLen
    rw [agg_tot, agg_tot, hrepl]
    refine countP_keeps_replace activeId (qid ++ "_" ++ cid) d1 d2 ?_ _
      (setDocColl_key_val coll (qid ++ "_" ++ cid) d1)
    rw [keeps, keeps, hq1, hq2, hr1, hr2]

/-- Concrete payloads for the C6 witness. -/
def pdOne : ResponseDoc := ⟨"Q", some [RVal.num 4], "C"⟩

/-- Second concrete payload for the C6 witness. -/
def pdTwo : ResponseDoc := ⟨"Q", some [RVal.num 5], "C"⟩

theorem claim_C6_witness :
    (setDocColl (setDocColl [] ("Q" ++ "_" ++ "C") pdOne) ("Q" ++ "_" ++ "C") pdTwo).length
      = (setDocColl [] ("Q" ++ "_" ++ "C") pdOne).length ∧
    (aggregate "Q" 1
        ((setDocColl (setDocColl [] ("Q" ++ "_" ++ "C") pdOne) ("Q" ++ "_" ++ "C") pdTwo).map
          Prod.snd)).2
      = (aggregate "Q" 1 ((setDocColl [] ("Q" ++ "_" ++ "C") pdOne).map Prod.snd)).2 :=
  ⟨(claim_C6 "Q" "C" [] pdOne pdTwo (by simp) rfl rfl rfl rfl).1,
   (claim_C6 "Q" "C" [] pdOne pdTwo (by simp) rfl rfl rfl rfl).2.1 "Q" 1⟩

/-! ### Alert-variant submit handler (`livePoll.jsx`) -/

/-- The `handleSubmit` of `livePoll.jsx`: guard on question/submitted, alert
when any rating is outside `[1,5]`, otherwise a single `setDoc` write under
`{questionId}_{clientId}`; on write success `submitted` becomes true, on
write failure the error is logged and nothing else changes.  Returns the new
component state, the responses collection, the error log, and the alert
message (if any). -/
def handleSubmitAlert (clientId : String) (writeOk : Bool) (st : SessionState)
    (resps : List (String × ResponseDoc)) (log : List String) :
    SessionState × List (String × ResponseDoc) × List String × Option String :=
  match st.question with
  | none => (st, resps, log, none)
  | some q =>
    if st.submitted then (st, resps, log, none)
    else if st.ratings.length = 0 ∨
        st.ratings.any (fun r => decide (r < 1) || decide (5 < r)) then
      (st, resps, log, some "Please rate all options before submitting.")
    else if writeOk then
      ({ st with submitted := true },
        setDocColl resps (q.id ++ "_" ++ clientId)
          ⟨q.id, some (st.ratings.map RVal.num), clientId⟩, log, none)
    else
      (st, resps, log ++ ["failed to save response"], none)

/-- C7: Write-failure atomicity.  When the store write of a valid submit
fails, the session state is unchanged (`submitted` remains false, ratings
untouched), the responses collection is unchanged, the failure is appended to
the error log, and an immediate retry with a succeeding write completes the
submission; the failure is never treated as success. -/
theorem claim_C7 (clientId : String) (st : SessionState) (q : ActiveQuestion)
    (resps : List (String × ResponseDoc)) (log : List String)
    (hq : st.question = some q) (hns : st.submitted = false)
    (hlen : st.ratings.length ≠ 0) (hval : ∀ r ∈ st.ratings, 1 ≤ r ∧ r ≤ 5) :
    (handleSubmitAlert clientId false st resps log).1 = st ∧
    (handleSubmitAlert clientId false st resps log).1.submitted = false ∧
    (handleSubmitAlert clientId false st resps log).2.1 = resps ∧
    (handleSubmitAlert clientId false st resps log).2.2.1 =
      log ++ ["failed to save response"] ∧
    (handleSubmitAlert clientId true st resps log).1.submitted = true ∧
    (handleSubmitAlert clientId true st resps log).2.1 =
      setDocColl resps (q.id ++ "_" ++ clientId)
        ⟨q.id, some (st.ratings.map RVal.num), clientId⟩ := by
  have hsub : ¬(st.submitted = true) := by
    rw [hns]
    exact Bool.false_ne_true
  have hany : st.ratings.any (fun r => decide (r < 1) || decide (5 < r)) = false := by
    rw [List.any_eq_false]
    intro r hr
    have hb := hval r hr
    simp
    omega
  have hcond : ¬(st.ratings.length = 0 ∨
      st.ratings.any (fun r => decide (r < 1) || decide (5 < r)) = true) := by
    rintro (h | h)
    · exact hlen h
    · rw [hany] at h
      exact Bool.false_ne_true h
  constructor
  · simp only [handleSubmitAlert, hq]
    rw [if_neg hsub, if_neg hcond, if_neg Bool.false_ne_true]
  refine ⟨?_, ?_, ?_, ?_, ?_⟩ <;>
    simp only [handleSubmitAlert, hq] <;>
    rw [if_neg hsub, if_neg hcond]
  · rw [if_neg Bool.false_ne_true]
    exact hns
  · rw [if_neg Bool.false_ne_true]
  · rw [if_neg Bool.false_ne_true]
  · simp
  · simp

theorem claim_C7_witness :
    (handleSubmitAlert "c" false ⟨some ⟨"q", ["a"]⟩, [4], false⟩ [] []).1 =
      ⟨some ⟨"q", ["a"]⟩, [4], false⟩ ∧
    (handleSubmitAlert "c" false ⟨some ⟨"q", ["a"]⟩, [4], false⟩ [] []).2.2.1 =
      [] ++ ["failed to save response"] ∧
    (handleSubmitAlert "c" true ⟨some ⟨"q", ["a"]⟩, [4], false⟩ [] []).1.submitted = true := by
  have h := claim_C7 "c" ⟨some ⟨"q", ["a"]⟩, [4], false⟩ ⟨"q", ["a"]⟩ [] [] rfl rfl
    (by decide) (by decide)
  exact ⟨h.1, h.2.2.2.1, h.2.2.2.2.1⟩

/-! ### Histogram-total identity (C8) -/

/-- Decidable check that every ratings entry of every document is a number in
`[1, 5]` (no rating is ever out of range). -/
def allInRange (docs : List ResponseDoc) : Bool :=
  docs.all (fun d => (d.ratings.getD []).all (fun rv =>
    match rv with
    | RVal.num v => decide (1 ≤ v) && decide (v ≤ 5)
    | RVal.notNum => false))

/-- A short response `[3]` and a full response `[3, 4]` against a two-option
question: the configuration refuting C8 as stated. -/
def exDocsC8 : List ResponseDoc :=
  [⟨"q", some [RVal.num 3], "c1"⟩,
   ⟨"q", some [RVal.num 3, RVal.num 4], "c2"⟩]

/-- C8 counterexample: with no rating out of range, option index 1 receives a
well-formed contribution (bucket 3 has one count), yet the histogram sum of
option 1 is 1 while the total is 2 — refuting the claim that the identity
holds for every option with at least one well-formed contribution. -/
theorem claim_C8_counterexample :
    allInRange exDocsC8 = true ∧
    (aggregate "q" 2 exDocsC8).2 = 2 ∧
    getCnt (aggregate "q" 2 exDocsC8).1 1 3 = 1 ∧
    ((aggregate "q" 2 exDocsC8).1.getD 1 []).sum = 1 ∧
    ((aggregate "q" 2 exDocsC8).1.getD 1 []).sum ≠ (aggregate "q" 2 exDocsC8).2 := by
  refine ⟨by decide, by decide, by decide, by decide, by decide⟩

/-- C8 amended: `Σ_bucket counts[i][bucket] = total` holds for every option
index `i` that receives a well-formed in-range rating contribution from every
kept response (rather than from at least one). -/
theorem claim_C8_amended (activeId : String) (optsLen : Nat) (docs : List ResponseDoc)
    (i : Nat) (hi : i < optsLen)
    (hcov : ∀ d ∈ docs, keeps activeId d = true →
      ∃ v : Int, (d.ratings.getD []).getD i RVal.notNum = RVal.num v ∧ 1 ≤ v ∧ v ≤ 5) :
    ((aggregate activeId optsLen docs).1.getD i []).sum = (aggregate activeId optsLen docs).2 :=
  agg_row_sum_eq activeId optsLen docs i hi hcov

theorem claim_C8_amended_witness :
    ((aggregate "q" 2 exTwo).1.getD 1 []).sum = (aggregate "q" 2 exTwo).2 :=
  claim_C8_amended "q" 2 exTwo 1 (by decide) (by
    intro d hd hk
    simp only [exTwo, List.mem_cons, List.not_mem_nil, or_false] at hd
    rcases hd with rfl | rfl
    · exact ⟨1, rfl, by norm_num, by norm_num⟩
    · exact ⟨3, rfl, by norm_num, by norm_num⟩)

/-! ### Option card rendering (results view) -/

/-- `avg.toFixed(2)` for the nonnegative averages that occur here: the value
rounded to two decimals and printed with exactly two fraction digits. -/
def toFixed2 (q : Rat) : String :=
  toString (round (q * 100) / 100) ++ "." ++
    (if (round (q * 100) % 100).toNat < 10 then
      "0" ++ toString (round (q * 100) % 100).toNat
    else toString (round (q * 100) % 100).toNat)

/-- The three text fields of one option card of the results view: the
sub-label under the option (average figure or "No responses yet"), the
descriptive label, and the percentage figure. -/
structure OptionCard where
  avgText : String
  labelText : String
  pctText : String
deriving DecidableEq

/-- One option card of the results view: `counts = optionRatingCounts[i] ||
new Array(5).fill(0)`, the derived total/sum/avg/avgPct of lines 104–107, the
sub-label `total ? avg.toFixed(2) + " / 5" : "No responses yet"`, the label
`pctLabelFor(avgPct)`, and the always-rendered `avgPct + "%"` figure. -/
def renderOptionCard (optionRatingCounts : List (List Nat)) (totalResponses : Nat)
    (i : Nat) : OptionCard :=
  { avgText :=
      if optionTotal (optionRatingCounts.getD i (List.replicate 5 0)) totalResponses ≠ 0 then
        toFixed2 (optionAvg (optionRatingCounts.getD i (List.replicate 5 0)) totalResponses)
          ++ " / 5"
      else "No responses yet"
    labelText :=
      pctLabelFor (optionAvgPct (optionRatingCounts.getD i (List.replicate 5 0)) totalResponses)
    pctText :=
      toString (optionAvgPct (optionRatingCounts.getD i (List.replicate 5 0)) totalResponses)
        ++ "%" }

/-- Behaviour of one option card when the aggregated total is 0. -/
theorem card_of_zero_total (activeId : String) (optsLen : Nat) (docs : List ResponseDoc)
    (i : Nat) (hi : i < optsLen) (ht : (aggregate activeId optsLen docs).2 = 0) :
    optionAvg ((aggregate activeId optsLen docs).1.getD i (List.replicate 5 0))
        (aggregate activeId optsLen docs).2 = 0 ∧
    optionAvgPct ((aggregate activeId optsLen docs).1.getD i (List.replicate 5 0))
        (aggregate activeId optsLen docs).2 = 0 ∧
    (renderOptionCard (aggregate activeId optsLen docs).1
        (aggregate activeId optsLen docs).2 i).avgText = "No responses yet" ∧
    (renderOptionCard (aggregate activeId optsLen docs).1
        (aggregate activeId optsLen docs).2 i).labelText = "Not useful" ∧
    (renderOptionCard (aggregate activeId optsLen docs).1
        (aggregate activeId optsLen docs).2 i).pctText = "0%" := by
  have hlen : i < (aggregate activeId optsLen docs).1.length := by
    rw [(agg_shaped activeId optsLen docs).1]
    exact hi
  have hgd : (aggregate activeId optsLen docs).1.getD i (List.replicate 5 0)
      = (aggregate activeId optsLen docs).1.getD i [] := by
    rw [List.getD_eq_getElem _ _ hlen, List.getD_eq_getElem _ _ hlen]
  have hrz : ((aggregate activeId optsLen docs).1.getD i []).sum = 0 :=
    agg_row_zero activeId optsLen docs i hi ht
  have hT : optionTotal ((aggregate activeId optsLen docs).1.getD i (List.replicate 5 0))
      (aggregate activeId optsLen docs).2 = 0 := by
    rw [optionTotal, ht, if_neg (by omega), hgd]
    exact hrz
  have hA : optionAvg ((aggregate activeId optsLen docs).1.getD i (List.replicate 5 0))
      (aggregate activeId optsLen docs).2 = 0 := by
    rw [optionAvg, hT]
    simp
  have hP : optionAvgPct ((aggregate activeId optsLen docs).1.getD i (List.replicate 5 0))
      (aggregate activeId optsLen docs).2 = 0 := by
    rw [optionAvgPct, hA]
    norm_num
  refine ⟨hA, hP, ?_, ?_, ?_⟩
  · rw [renderOptionCard]
    simp only [hT]
    simp
  · rw [renderOptionCard]
    simp only [hP]
    rfl
  · rw [renderOptionCard]
    simp only [hP]
    rfl

/-- C9 counterexample: at zero responses the option card does show
"No responses yet" in the average slot, but it still renders the "0%"
percentage figure (the `avgPct%` element is unconditional), refuting
"shows `No responses yet` rather than a `0%` figure". -/
theorem claim_C9_counterexample :
    (renderOptionCard (aggregate "q" 2 []).1 (aggregate "q" 2 []).2 0).avgText
      = "No responses yet" ∧
    (renderOptionCard (aggregate "q" 2 []).1 (aggregate "q" 2 []).2 0).pctText = "0%" := by
  have h := card_of_zero_total "q" 2 [] 0 (by decide) (by decide)
  exact ⟨h.2.2.1, h.2.2.2.2⟩

/-- C9 amended: when the aggregated total is 0, every option's average and
percentage are 0, the average slot shows "No responses yet" in place of the
numeric average figure (distinguishing the no-data case), the label reads
"Not useful", and the percentage element still renders "0%". -/
theorem claim_C9_amended (activeId : String) (optsLen : Nat) (docs : List ResponseDoc)
    (i : Nat) (hi : i < optsLen) (ht : (aggregate activeId optsLen docs).2 = 0) :
    optionAvg ((aggregate activeId optsLen docs).1.getD i (List.replicate 5 0))
        (aggregate activeId optsLen docs).2 = 0 ∧
    optionAvgPct ((aggregate activeId optsLen docs).1.getD i (List.replicate 5 0))
        (aggregate activeId optsLen docs).2 = 0 ∧
    (renderOptionCard (aggregate activeId optsLen docs).1
        (aggregate activeId optsLen docs).2 i).avgText = "No responses yet" ∧
    (renderOptionCard (aggregate activeId optsLen docs).1
        (aggregate activeId optsLen docs).2 i).labelText = "Not useful" ∧
    (renderOptionCard (aggregate activeId optsLen docs).1
        (aggregate activeId optsLen docs).2 i).pctText = "0%" :=
  card_of_zero_total activeId optsLen docs i hi ht

theorem claim_C9_amended_witness :
    optionAvg ((aggregate "q" 2 []).1.getD 0 (List.replicate 5 0)) (aggregate "q" 2 []).2 = 0 ∧
    (renderOptionCard (aggregate "q" 2 []).1 (aggregate "q" 2 []).2 0).avgText
      = "No responses yet" :=
  ⟨(claim_C9_amended "q" 2 [] 0 (by decide) (by decide)).1,
   (claim_C9_amended "q" 2 [] 0 (by decide) (by decide)).2.2.1⟩

end LivePollModel
